import Mathlib

/-!
Verification of the IMDb dataset build pipeline
(`data/2025-W48/build_imdb_dataset.py`).

The pipeline joins title-basics with title-ratings (inner) and title-crew
(left), filters titles, collects the director/writer ID lists, resolves the
wanted person IDs against the chunked `name.basics` reference dataset with an
early exit, disambiguates duplicate display names, and rewrites the ID-list
columns into name lists.  The definitions below are shallow embeddings of the
corresponding Python functions; rows are structures with `Option` fields for
nullable (NaN) cells.
-/

namespace ImdbBuild

/-- One row of `title.basics` after parsing (line 163).  `tconst` is the join
key; the remaining columns are nullable (`\N` parses to NaN, modelled as
`none`).  `averageRating` lives in the ratings table, not here. -/
structure BasicsRow where
  tconst : String
  titleType : Option String
  primaryTitle : Option String
  originalTitle : Option String
  isAdult : Option Int
  startYear : Option Int
  endYear : Option Int
  runtimeMinutes : Option Int
  genres : Option String
deriving Repr, DecidableEq

/-- One row of `title.ratings` (line 164): the join key plus the two ratings
columns.  `averageRating` is only ever carried through unmodified, so it is
modelled as a rational number. -/
structure RatingsRow where
  tconst : String
  averageRating : Option ℚ
  numVotes : Option Int
deriving Repr, DecidableEq

/-- One row of `title.crew` (line 165): the join key plus the nullable
comma-separated director and writer ID lists. -/
structure CrewRow where
  tconst : String
  directors : Option String
  writers : Option String
deriving Repr, DecidableEq

/-- A row of the merged title table (after lines 168-169): all basics columns,
the ratings columns, and the crew columns (null when the title has no crew
row, because the crew merge is a left join). -/
structure JoinedRow where
  tconst : String
  titleType : Option String
  primaryTitle : Option String
  originalTitle : Option String
  isAdult : Option Int
  startYear : Option Int
  endYear : Option Int
  runtimeMinutes : Option Int
  genres : Option String
  averageRating : Option ℚ
  numVotes : Option Int
  directors : Option String
  writers : Option String
deriving Repr, DecidableEq

/-- Combine a basics row, its matching ratings row and the crew columns into
one merged row. -/
def mkJoined (b : BasicsRow) (r : RatingsRow) (dirs wris : Option String) :
    JoinedRow :=
  { tconst := b.tconst
    titleType := b.titleType
    primaryTitle := b.primaryTitle
    originalTitle := b.originalTitle
    isAdult := b.isAdult
    startYear := b.startYear
    endYear := b.endYear
    runtimeMinutes := b.runtimeMinutes
    genres := b.genres
    averageRating := r.averageRating
    numVotes := r.numVotes
    directors := dirs
    writers := wris }

/-- `basics.merge(ratings, on="tconst", how="inner")` (line 168): for each
basics row, in order, pair it with every ratings row sharing its `tconst`;
a basics row with no matching ratings row produces nothing. -/
def innerJoinRatings (basics : List BasicsRow) (ratings : List RatingsRow) :
    List (BasicsRow × RatingsRow) :=
  basics.flatMap fun b =>
    (ratings.filter fun r => r.tconst = b.tconst).map fun r => (b, r)

/-- `df.merge(crew, on="tconst", how="left")` (line 169): each merged
basics-ratings row is paired with every crew row sharing its `tconst`, or kept
once with null director/writer lists when no crew row matches. -/
def leftJoinCrew (df : List (BasicsRow × RatingsRow)) (crew : List CrewRow) :
    List JoinedRow :=
  df.flatMap fun p =>
    match crew.filter (fun c => c.tconst = p.1.tconst) with
    | [] => [mkJoined p.1 p.2 none none]
    | ms => ms.map fun c => mkJoined p.1 p.2 c.directors c.writers

/-- The full merge of lines 168-169: inner join with ratings, then left join
with crew. -/
def mergeTitles (basics : List BasicsRow) (ratings : List RatingsRow)
    (crew : List CrewRow) : List JoinedRow :=
  leftJoinCrew (innerJoinRatings basics ratings) crew

/-- The row filter of lines 172-178.  A NaN cell fails every comparison
(pandas semantics), so a null `isAdult`, `startYear` or `numVotes` drops the
row, exactly like `none` failing the matches below. -/
def keepRow (row : JoinedRow) : Bool :=
  (row.isAdult == some 0) && (row.titleType == some "movie") &&
    row.runtimeMinutes.isSome &&
    (match row.startYear with
     | some y => decide (1930 ≤ y)
     | none => false) &&
    (match row.numVotes with
     | some v => decide (1000 ≤ v)
     | none => false)

/-- `df = df[...]` (lines 172-178): keep exactly the rows satisfying the
filter predicate, in order. -/
def filterTitles (df : List JoinedRow) : List JoinedRow :=
  df.filter keepRow

/-- Helper for `splitOnComma`: walk the characters, cutting at every comma;
`acc` holds the current field reversed. -/
def splitOnCommaAux : List Char → List Char → List (List Char)
  | [], acc => [acc.reverse]
  | c :: rest, acc =>
    if c = ',' then acc.reverse :: splitOnCommaAux rest []
    else splitOnCommaAux rest (c :: acc)

/-- Python's `s.split(",")` (used by `.str.split(",")` at lines 186 and 228):
cut the string at every comma, keeping empty fields, so `""` gives `[""]` and
`"a,"` gives `["a", ""]`. -/
def splitOnComma (s : String) : List String :=
  (splitOnCommaAux s.data []).map List.asString

/-- Python's `s.strip()` (used by `.str.strip()` at line 188): remove leading
and trailing whitespace. -/
def stripToken (s : String) : String :=
  ((s.data.dropWhile Char.isWhitespace).reverse.dropWhile
      Char.isWhitespace).reverse.asString

/-- Foreign-key extraction (lines 181-192): for each column cell, drop nulls,
split on comma, strip whitespace from each token, drop empty tokens, and
collect everything.  The Python code unions the tokens into a set; this list
is read only through membership. -/
def collect_relevant_ids (cells : List (Option String)) : List String :=
  cells.flatMap fun cell =>
    match cell with
    | none => []
    | some s => ((splitOnComma s).map stripToken).filter fun t => t ≠ ""

/-- One row of `name.basics` as read by `load_relevant_people`
(lines 99-108): just the person ID and display name, both nullable. -/
structure NameRec where
  nconst : Option String
  primaryName : Option String
deriving Repr, DecidableEq

/-- `chunk.dropna(subset=["nconst", "primaryName"])` (line 115): the rows of a
chunk whose ID and name are both non-null, as (id, name) pairs. -/
def goodRows (chunk : List NameRec) : List (String × String) :=
  chunk.filterMap fun r =>
    match r.nconst, r.primaryName with
    | some i, some n => some (i, n)
    | _, _ => none

/-- `chunk[chunk["nconst"].isin(remaining_ids)]` (line 116): the non-null rows
of a chunk whose ID is still outstanding. -/
def chunkMatches (remaining : List String) (chunk : List NameRec) :
    List (String × String) :=
  (goodRows chunk).filter fun p => remaining.contains p.1

/-- `remaining_ids.difference_update(matched_ids)` (lines 119-120): the
outstanding set left after one chunk is the previous one minus the IDs
matched in that chunk. -/
def stepRemaining (rem : List String) (c : List NameRec) : List String :=
  rem.filter fun i => !(((chunkMatches rem c).map Prod.fst).contains i)

/-- The chunk loop of lines 114-129: process chunks in order, appending each
chunk's matches and removing the matched IDs from the outstanding set
(`remaining_ids.difference_update`, line 120); stop as soon as the outstanding
set is empty (`break`, lines 127-129).  Returns the concatenated matches
(`pd.concat(frames)`, line 132), the outstanding IDs left at the end, and the
number of chunks consumed from the reader. -/
def scanChunks (remaining : List String) :
    List (List NameRec) → List (String × String) × List String × Nat
  | [] => ([], remaining, 0)
  | c :: cs =>
    if (stepRemaining remaining c).isEmpty then
      (chunkMatches remaining c, stepRemaining remaining c, 1)
    else
      (chunkMatches remaining c ++
          (scanChunks (stepRemaining remaining c) cs).1,
        (scanChunks (stepRemaining remaining c) cs).2.1,
        (scanChunks (stepRemaining remaining c) cs).2.2 + 1)

/-- `load_relevant_people` (lines 85-143): with an empty wanted set, return an
empty table without fetching anything (lines 90-94, zero chunks consumed);
otherwise scan the reference chunks.  The unresolved IDs (second component)
are only logged as a warning (lines 136-140); the function returns the matched
rows either way. -/
def load_relevant_people (relevant_ids : List String)
    (chunks : List (List NameRec)) :
    List (String × String) × List String × Nat :=
  if relevant_ids.isEmpty then ([], [], 0) else scanChunks relevant_ids chunks

/-- The outstanding set left after processing a given chunk list with the
update rule of lines 115-120, with no early exit.  Used to phrase where the
last match lies. -/
def remainingAfter (ids : List String) (chunks : List (List NameRec)) :
    List String :=
  chunks.foldl stepRemaining ids

/-- Whether a chunk contains a row with this ID and a non-null name (the rows
that survive line 115's dropna). -/
def presentInChunk (c : List NameRec) (id : String) : Prop :=
  ∃ r ∈ c, r.nconst = some id ∧ ∃ n, r.primaryName = some n

/-- Whether some chunk of the reference dataset contains a row with this ID
and a non-null name. -/
def presentIn (chunks : List (List NameRec)) (id : String) : Prop :=
  ∃ c ∈ chunks, presentInChunk c id

/-- The recursive walk behind `disambiguate` (lines 202-211): `dups` tells
whether a name is a duplicate (`name not in dups`, line 206), `counter` holds
the per-name running counters accumulated so far (the `counter` dict,
lines 202, 208).  A null name or a non-duplicate name passes through; a
duplicate name gets the incremented counter appended as `" (k)"`. -/
def disambiguateAux {α : Type} (dups : String → Bool) (counter : String → Nat) :
    List (α × Option String) → List (α × Option String)
  | [] => []
  | (i, none) :: rest => (i, none) :: disambiguateAux dups counter rest
  | (i, some n) :: rest =>
    if dups n then
      (i, some (n ++ " (" ++ toString (counter n + 1) ++ ")")) ::
        disambiguateAux dups (fun m => if m = n then counter n + 1 else counter m) rest
    else
      (i, some n) :: disambiguateAux dups counter rest

/-- The name disambiguation step (lines 197-211): a name is a duplicate when
it occurs more than once among the non-null names (`value_counts`, counting
only non-null cells, lines 199-200); records are rewritten in order with
per-name counters starting at 0 and incremented before use (line 208). -/
def disambiguate {α : Type} (records : List (α × Option String)) :
    List (α × Option String) :=
  disambiguateAux
    (fun n => 2 ≤ (records.map Prod.snd).count (some n)) (fun _ => 0) records

/-- `name_map` (lines 216-220): drop rows with a null name, then look an ID up
to its display name.  The pandas Series lookup is modelled as first-match
association lookup (in the pipeline the IDs are pairwise distinct; see the
duplicate-ID analysis below). -/
def name_map (people : List (String × Option String)) (id : String) :
    Option String :=
  ((people.filterMap fun p => p.2.map fun n => (p.1, n)).find? fun q =>
      q.1 = id).map Prod.snd

/-- The per-cell behaviour of `ids_to_names` (lines 222-238): a null cell
stays null; a non-null cell is split on comma (no stripping), each token is
looked up in the mapping (`.map(mapping)`), unmapped tokens are dropped
(`.dropna()`), and the resolved names are comma-joined in token order
(`.agg(",".join)`); a row all of whose tokens are unmapped disappears from the
grouped result, so its output cell is null, not the empty string. -/
def rewriteCell (mapping : String → Option String) (cell : Option String) :
    Option String :=
  match cell with
  | none => none
  | some s =>
    let names := (splitOnComma s).filterMap mapping
    if names.isEmpty then none else some (String.intercalate "," names)

/-- `ids_to_names(series, mapping)` (lines 222-238) applied to a whole
column. -/
def ids_to_names (series : List (Option String))
    (mapping : String → Option String) : List (Option String) :=
  series.map (rewriteCell mapping)

/-- The fixed artifact path (`CSV_PATH`, line 11), relative to the program. -/
def CSV_PATH : String := "imdb_movies.csv"

/-- The observable state of the cache gate: whether the artifact file exists
(`CSV_PATH.exists()`, line 158) and how many times the build pipeline
(lines 162-250, ending in the artifact write) has run. -/
structure BuildState where
  artifactExists : Bool
  pipelineRuns : Nat
deriving Repr, DecidableEq

/-- The cache gate of `build_imdb_csv` (lines 158-160, 162-251): when the
artifact exists and `force` is false, return the cached path untouched;
otherwise run the whole pipeline once, write the artifact (so it now exists),
and return the same path. -/
def build_imdb_csv_gate (force : Bool) (s : BuildState) : BuildState × String :=
  if s.artifactExists && !force then (s, CSV_PATH)
  else (⟨true, s.pipelineRuns + 1⟩, CSV_PATH)

/-- One output row (after the column drops of lines 243-245): `tconst`,
`titleType`, `isAdult` and `endYear` are removed; `directors` and `writers`
now hold resolved name lists. -/
structure OutRow where
  primaryTitle : Option String
  originalTitle : Option String
  startYear : Option Int
  runtimeMinutes : Option Int
  genres : Option String
  averageRating : Option ℚ
  numVotes : Option Int
  directors : Option String
  writers : Option String
deriving Repr, DecidableEq

/-- Assemble one output row from a filtered joined row and its rewritten
director and writer cells (lines 240-245). -/
def mkOut (row : JoinedRow) (dirs wris : Option String) : OutRow :=
  { primaryTitle := row.primaryTitle
    originalTitle := row.originalTitle
    startYear := row.startYear
    runtimeMinutes := row.runtimeMinutes
    genres := row.genres
    averageRating := row.averageRating
    numVotes := row.numVotes
    directors := dirs
    writers := wris }

/-- The whole pipeline of lines 162-250 as one function of the four source
datasets: merge (lines 168-169), filter (lines 172-178), collect the wanted
IDs from both list columns (lines 181-192), resolve them against the chunked
reference dataset (line 195), disambiguate duplicate names (lines 197-211),
build the name lookup (lines 216-220), rewrite both list columns
(lines 240-241) and project to the output columns (lines 243-245). -/
def build_pipeline (basics : List BasicsRow) (ratings : List RatingsRow)
    (crew : List CrewRow) (nameChunks : List (List NameRec)) : List OutRow :=
  let df := filterTitles (mergeTitles basics ratings crew)
  let wanted := collect_relevant_ids (df.map JoinedRow.directors) ++
    collect_relevant_ids (df.map JoinedRow.writers)
  let people := (load_relevant_people wanted nameChunks).1
  let people2 := disambiguate (people.map fun p => (p.1, some p.2))
  let nm := name_map people2
  let dirs := ids_to_names (df.map JoinedRow.directors) nm
  let wris := ids_to_names (df.map JoinedRow.writers) nm
  List.zipWith (fun (p : JoinedRow × Option String) w => mkOut p.1 p.2 w)
    (df.zip dirs) wris

/-- A concrete joined row that passes every filter condition; used to
instantiate the universally quantified theorems below. -/
def sampleRow : JoinedRow :=
  { tconst := "tt1"
    titleType := some "movie"
    primaryTitle := some "Sample"
    originalTitle := some "Sample"
    isAdult := some 0
    startYear := some 1999
    endYear := none
    runtimeMinutes := some 100
    genres := some "Drama"
    averageRating := some 7
    numVotes := some 5000
    directors := some "n1"
    writers := none }

/-- A concrete basics row, matching `sampleRatings` on the join key. -/
def sampleBasics : BasicsRow :=
  { tconst := "tt1"
    titleType := some "movie"
    primaryTitle := some "Sample"
    originalTitle := some "Sample"
    isAdult := some 0
    startYear := some 1999
    endYear := none
    runtimeMinutes := some 100
    genres := some "Drama" }

/-- A concrete ratings row, matching `sampleBasics` on the join key. -/
def sampleRatings : RatingsRow :=
  { tconst := "tt1", averageRating := some 7, numVotes := some 5000 }

theorem keepRow_iff (r : JoinedRow) :
    keepRow r = true ↔
      r.isAdult = some 0 ∧ r.titleType = some "movie" ∧
        r.runtimeMinutes.isSome = true ∧
        (∃ y, r.startYear = some y ∧ 1930 ≤ y) ∧
        ∃ v, r.numVotes = some v ∧ 1000 ≤ v := by
  unfold keepRow
  cases hy : r.startYear <;> cases hv : r.numVotes <;>
    simp [hy, hv, and_assoc]

/-- C1: a joined row survives the filter of lines 172-178 iff its adult flag
is 0, its type is "movie", its runtime is non-null, its start year is at
least 1930 and its vote count is at least 1000; every kept row satisfies all
five conditions, and every joined row satisfying them keeps its exact
multiplicity (hence appears exactly once if it occurred once). -/
theorem filter_correct_c1 (df : List JoinedRow) (r : JoinedRow) :
    (r ∈ filterTitles df →
      r ∈ df ∧ r.isAdult = some 0 ∧ r.titleType = some "movie" ∧
        r.runtimeMinutes.isSome = true ∧
        (∃ y, r.startYear = some y ∧ 1930 ≤ y) ∧
        ∃ v, r.numVotes = some v ∧ 1000 ≤ v) ∧
    ((r.isAdult = some 0 ∧ r.titleType = some "movie" ∧
        r.runtimeMinutes.isSome = true ∧
        (∃ y, r.startYear = some y ∧ 1930 ≤ y) ∧
        (∃ v, r.numVotes = some v ∧ 1000 ≤ v)) →
      (filterTitles df).count r = df.count r) := by
  constructor
  · intro hr
    have hmem := List.mem_filter.mp hr
    exact ⟨hmem.1, (keepRow_iff r).mp hmem.2⟩
  · intro hcond
    exact List.count_filter ((keepRow_iff r).mpr hcond)

/-- Witness for C1 at a concrete row that passes the filter. -/
theorem filter_correct_c1_witness :
    (filterTitles [sampleRow]).count sampleRow = [sampleRow].count sampleRow :=
  (filter_correct_c1 [sampleRow] sampleRow).2
    ⟨rfl, rfl, rfl, ⟨1999, rfl, by decide⟩, ⟨5000, rfl, by decide⟩⟩

theorem mem_innerJoinRatings {basics : List BasicsRow}
    {ratings : List RatingsRow} {p : BasicsRow × RatingsRow} :
    p ∈ innerJoinRatings basics ratings ↔
      p.1 ∈ basics ∧ p.2 ∈ ratings ∧ p.2.tconst = p.1.tconst := by
  constructor
  · intro h
    simp only [innerJoinRatings, List.mem_flatMap, List.mem_map,
      List.mem_filter, decide_eq_true_eq] at h
    obtain ⟨b, hb, r, ⟨hr, ht⟩, hp⟩ := h
    cases hp
    exact ⟨hb, hr, ht⟩
  · intro ⟨h1, h2, h3⟩
    simp only [innerJoinRatings, List.mem_flatMap, List.mem_map,
      List.mem_filter, decide_eq_true_eq]
    exact ⟨p.1, h1, p.2, ⟨h2, h3⟩, rfl⟩

theorem mem_leftJoinCrew {df : List (BasicsRow × RatingsRow)}
    {crew : List CrewRow} {row : JoinedRow} :
    row ∈ leftJoinCrew df crew ↔
      ∃ p ∈ df,
        (crew.filter (fun c => c.tconst = p.1.tconst) = [] ∧
          row = mkJoined p.1 p.2 none none) ∨
        ∃ c ∈ crew.filter (fun c => c.tconst = p.1.tconst),
          row = mkJoined p.1 p.2 c.directors c.writers := by
  simp only [leftJoinCrew, List.mem_flatMap]
  refine exists_congr fun p => and_congr_right fun _ => ?_
  cases h : crew.filter (fun c => c.tconst = p.1.tconst) with
  | nil => simp
  | cons x xs =>
    simp only [List.mem_map, List.mem_cons]
    constructor
    · intro ⟨c, hc, hrow⟩
      exact Or.inr ⟨c, hc, hrow.symm⟩
    · intro hcase
      cases hcase with
      | inl hcase => exact absurd hcase.1 (List.cons_ne_nil x xs)
      | inr hcase =>
        obtain ⟨c, hc, hrow⟩ := hcase
        exact ⟨c, hc, hrow.symm⟩

/-- C2: every merged row stems from a basics row and a ratings row with its
title ID and carries that ratings row's columns unmodified (so a title with
no ratings row is excluded by the inner join of line 168); every
basics-ratings pair agreeing on the title ID yields a merged row retaining
the ratings columns (even with no crew row, since line 169 is a left join);
and a merged row whose title has no crew row has null director and writer
lists. -/
theorem join_semantics_c2 (basics : List BasicsRow) (ratings : List RatingsRow)
    (crew : List CrewRow) :
    (∀ row ∈ mergeTitles basics ratings crew,
      (∃ b ∈ basics, b.tconst = row.tconst) ∧
        ∃ r ∈ ratings, r.tconst = row.tconst ∧
          row.averageRating = r.averageRating ∧ row.numVotes = r.numVotes) ∧
    (∀ b ∈ basics, ∀ r ∈ ratings, r.tconst = b.tconst →
      ∃ row ∈ mergeTitles basics ratings crew, row.tconst = b.tconst ∧
        row.averageRating = r.averageRating ∧ row.numVotes = r.numVotes) ∧
    (∀ row ∈ mergeTitles basics ratings crew,
      (∀ c ∈ crew, c.tconst ≠ row.tconst) →
      row.directors = none ∧ row.writers = none) := by
  refine ⟨?_, ?_, ?_⟩
  · intro row hrow
    obtain ⟨p, hp, hcase⟩ := mem_leftJoinCrew.mp hrow
    obtain ⟨hb, hr, ht⟩ := mem_innerJoinRatings.mp hp
    have hrt : row.tconst = p.1.tconst ∧
        row.averageRating = p.2.averageRating ∧
        row.numVotes = p.2.numVotes := by
      rcases hcase with ⟨_, hrow2⟩ | ⟨c, _, hrow2⟩ <;> subst hrow2 <;>
        exact ⟨rfl, rfl, rfl⟩
    exact ⟨⟨p.1, hb, hrt.1.symm⟩,
      p.2, hr, by rw [ht, hrt.1], hrt.2.1, hrt.2.2⟩
  · intro b hb r hr ht
    have hp : (b, r) ∈ innerJoinRatings basics ratings :=
      mem_innerJoinRatings.mpr ⟨hb, hr, ht⟩
    cases hc : crew.filter (fun c => c.tconst = b.tconst) with
    | nil =>
      refine ⟨mkJoined b r none none,
        mem_leftJoinCrew.mpr ⟨(b, r), hp, Or.inl ⟨hc, rfl⟩⟩, rfl, rfl, rfl⟩
    | cons x xs =>
      refine ⟨mkJoined b r x.directors x.writers,
        mem_leftJoinCrew.mpr ⟨(b, r), hp, Or.inr ⟨x, ?_, rfl⟩⟩, rfl, rfl, rfl⟩
      rw [hc]
      exact List.mem_cons_self x xs
  · intro row hrow hnone
    obtain ⟨p, hp, hcase⟩ := mem_leftJoinCrew.mp hrow
    rcases hcase with ⟨_, hrow2⟩ | ⟨c, hc, hrow2⟩
    · subst hrow2
      exact ⟨rfl, rfl⟩
    · exfalso
      have hcf := List.mem_filter.mp hc
      have hct : c.tconst = p.1.tconst := by
        simpa using hcf.2
      have : row.tconst = p.1.tconst := by
        subst hrow2
        rfl
      exact hnone c hcf.1 (hct.trans this.symm)

/-- Witness for C2: the sample basics and ratings rows share a title ID, so
a merged row with the ratings columns exists even with no crew table. -/
theorem join_semantics_c2_witness :
    ∃ row ∈ mergeTitles [sampleBasics] [sampleRatings] [],
      row.tconst = sampleBasics.tconst ∧
        row.averageRating = sampleRatings.averageRating ∧
        row.numVotes = sampleRatings.numVotes :=
  (join_semantics_c2 [sampleBasics] [sampleRatings] []).2.1 sampleBasics
    (List.mem_singleton.mpr rfl) sampleRatings (List.mem_singleton.mpr rfl) rfl

theorem goodRows_mem {c : List NameRec} {p : String × String} :
    p ∈ goodRows c ↔
      ∃ r ∈ c, r.nconst = some p.1 ∧ r.primaryName = some p.2 := by
  simp only [goodRows, List.mem_filterMap]
  refine exists_congr fun r => and_congr_right fun _ => ?_
  cases h1 : r.nconst <;> cases h2 : r.primaryName <;>
    simp [Prod.ext_iff, eq_comm]

theorem presentInChunk_iff_goodRows {c : List NameRec} {id : String} :
    presentInChunk c id ↔ ∃ n, (id, n) ∈ goodRows c := by
  constructor
  · intro ⟨r, hr, hn, n, hp⟩
    exact ⟨n, goodRows_mem.mpr ⟨r, hr, hn, hp⟩⟩
  · intro ⟨n, hp⟩
    obtain ⟨r, hr, h1, h2⟩ := goodRows_mem.mp hp
    exact ⟨r, hr, h1, n, h2⟩

theorem mem_chunkMatches {rem : List String} {c : List NameRec}
    {p : String × String} :
    p ∈ chunkMatches rem c ↔ p ∈ goodRows c ∧ p.1 ∈ rem := by
  simp [chunkMatches, List.mem_filter]

theorem mem_chunkMatches_keys {rem : List String} {c : List NameRec}
    {id : String} :
    id ∈ (chunkMatches rem c).map Prod.fst ↔
      presentInChunk c id ∧ id ∈ rem := by
  rw [List.mem_map]
  constructor
  · intro ⟨p, hp, hid⟩
    obtain ⟨hg, hr⟩ := mem_chunkMatches.mp hp
    subst hid
    exact ⟨presentInChunk_iff_goodRows.mpr ⟨p.2, hg⟩, hr⟩
  · intro ⟨hpc, hr⟩
    obtain ⟨n, hg⟩ := presentInChunk_iff_goodRows.mp hpc
    exact ⟨(id, n), mem_chunkMatches.mpr ⟨hg, hr⟩, rfl⟩

theorem mem_stepRemaining {rem : List String} {c : List NameRec}
    {id : String} :
    id ∈ stepRemaining rem c ↔
      id ∈ rem ∧ ¬ id ∈ (chunkMatches rem c).map Prod.fst := by
  simp [stepRemaining, List.mem_filter]

theorem presentIn_nil {id : String} : ¬ presentIn [] id := by
  simp [presentIn]

theorem presentIn_cons {c : List NameRec} {cs : List (List NameRec)}
    {id : String} :
    presentIn (c :: cs) id ↔ presentInChunk c id ∨ presentIn cs id := by
  simp [presentIn]

theorem scanChunks_keys_iff :
    ∀ (chunks : List (List NameRec)) {rem : List String} {id : String},
      id ∈ (scanChunks rem chunks).1.map Prod.fst ↔
        id ∈ rem ∧ presentIn chunks id := by
  intro chunks
  induction chunks with
  | nil =>
    intro rem id
    simp [scanChunks, presentIn]
  | cons c cs ih =>
    intro rem id
    rw [scanChunks]
    by_cases he : (stepRemaining rem c).isEmpty
    · rw [if_pos he]
      have hempty := List.isEmpty_iff.mp he
      rw [mem_chunkMatches_keys, presentIn_cons]
      constructor
      · intro ⟨h1, h2⟩
        exact ⟨h2, Or.inl h1⟩
      · intro ⟨h1, _⟩
        by_contra hno
        have : id ∈ stepRemaining rem c := by
          rw [mem_stepRemaining, mem_chunkMatches_keys]
          exact ⟨h1, fun hk => hno ⟨hk.1, h1⟩⟩
        rw [hempty] at this
        exact absurd this (List.not_mem_nil id)
    · rw [if_neg he]
      rw [List.map_append, List.mem_append, mem_chunkMatches_keys, ih,
        mem_stepRemaining, mem_chunkMatches_keys, presentIn_cons]
      constructor
      · intro hcase
        rcases hcase with ⟨h1, h2⟩ | ⟨⟨h1, _⟩, h2⟩
        · exact ⟨h2, Or.inl h1⟩
        · exact ⟨h1, Or.inr h2⟩
      · intro ⟨h1, h2⟩
        rcases h2 with h2 | h2
        · exact Or.inl ⟨h2, h1⟩
        · by_cases hc : presentInChunk c id
          · exact Or.inl ⟨hc, h1⟩
          · exact Or.inr ⟨⟨h1, fun hk => hc hk.1⟩, h2⟩

theorem scanChunks_outstanding_iff :
    ∀ (chunks : List (List NameRec)) {rem : List String} {id : String},
      id ∈ (scanChunks rem chunks).2.1 ↔
        id ∈ rem ∧ ¬ presentIn chunks id := by
  intro chunks
  induction chunks with
  | nil =>
    intro rem id
    simp [scanChunks, presentIn]
  | cons c cs ih =>
    intro rem id
    rw [scanChunks]
    by_cases he : (stepRemaining rem c).isEmpty
    · rw [if_pos he]
      have hempty := List.isEmpty_iff.mp he
      rw [hempty]
      simp only [List.not_mem_nil, false_iff]
      intro ⟨h1, h2⟩
      have : id ∈ stepRemaining rem c := by
        rw [mem_stepRemaining, mem_chunkMatches_keys]
        refine ⟨h1, fun hk => h2 ?_⟩
        rw [presentIn_cons]
        exact Or.inl hk.1
      rw [hempty] at this
      exact absurd this (List.not_mem_nil id)
    · rw [if_neg he]
      rw [ih, mem_stepRemaining, mem_chunkMatches_keys, presentIn_cons]
      constructor
      · intro ⟨⟨h1, h2⟩, h3⟩
        refine ⟨h1, fun hp => ?_⟩
        rcases hp with hp | hp
        · exact h2 ⟨hp, h1⟩
        · exact h3 hp
      · intro ⟨h1, h2⟩
        exact ⟨⟨h1, fun hk => h2 (Or.inl hk.1)⟩, fun hp => h2 (Or.inr hp)⟩

theorem remainingAfter_cons (rem : List String) (c : List NameRec)
    (cs : List (List NameRec)) :
    remainingAfter rem (c :: cs) = remainingAfter (stepRemaining rem c) cs :=
  rfl

theorem scanChunks_consumed_le :
    ∀ (chunks : List (List NameRec)) {rem : List String} {k : Nat},
      rem ≠ [] → remainingAfter rem (chunks.take k) = [] →
      (scanChunks rem chunks).2.2 ≤ k := by
  intro chunks
  induction chunks with
  | nil =>
    intro rem k _ _
    simp [scanChunks]
  | cons c cs ih =>
    intro rem k hne hafter
    cases k with
    | zero =>
      rw [List.take_zero] at hafter
      exact absurd hafter hne
    | succ j =>
      rw [List.take_succ_cons, remainingAfter_cons] at hafter
      rw [scanChunks]
      by_cases he : (stepRemaining rem c).isEmpty
      · rw [if_pos he]
        exact Nat.succ_le_succ (Nat.zero_le j)
      · rw [if_neg he]
        have hne2 : stepRemaining rem c ≠ [] := fun h =>
          he (List.isEmpty_iff.mpr h)
        exact Nat.succ_le_succ (ih hne2 hafter)

theorem scanChunks_consumed_le_length :
    ∀ (chunks : List (List NameRec)) (rem : List String),
      (scanChunks rem chunks).2.2 ≤ chunks.length := by
  intro chunks
  induction chunks with
  | nil =>
    intro rem
    simp [scanChunks]
  | cons c cs ih =>
    intro rem
    rw [scanChunks]
    by_cases he : (stepRemaining rem c).isEmpty
    · rw [if_pos he]
      exact Nat.succ_le_succ (Nat.zero_le cs.length)
    · rw [if_neg he]
      exact Nat.succ_le_succ (ih (stepRemaining rem c))

theorem scanChunks_count_le :
    ∀ (chunks : List (List NameRec)) {rem : List String} {id : String},
      (∀ c ∈ chunks, ((goodRows c).map Prod.fst).count id ≤ 1) →
      ((scanChunks rem chunks).1.map Prod.fst).count id ≤ 1 := by
  intro chunks
  induction chunks with
  | nil =>
    intro rem id _
    simp [scanChunks]
  | cons c cs ih =>
    intro rem id hch
    have hgood := hch c (List.mem_cons_self c cs)
    have hsub : ((chunkMatches rem c).map Prod.fst).count id ≤ 1 := by
      refine le_trans ?_ hgood
      exact ((List.filter_sublist (goodRows c)).map Prod.fst).count_le id
    rw [scanChunks]
    by_cases he : (stepRemaining rem c).isEmpty
    · rw [if_pos he]
      exact hsub
    · rw [if_neg he]
      rw [List.map_append, List.count_append]
      by_cases hid : id ∈ (chunkMatches rem c).map Prod.fst
      · have hz : ((scanChunks (stepRemaining rem c) cs).1.map
            Prod.fst).count id = 0 := by
          rw [List.count_eq_zero]
          intro hmem
          have hin := ((scanChunks_keys_iff cs).mp hmem).1
          exact (mem_stepRemaining.mp hin).2 hid
        rw [hz]
        simpa using hsub
      · have hz : ((chunkMatches rem c).map Prod.fst).count id = 0 :=
          List.count_eq_zero.mpr hid
        rw [hz, Nat.zero_add]
        exact ih (fun c2 h2 => hch c2 (List.mem_cons_of_mem c h2))

/-- C5: the resolver never requests a reference chunk with an empty
outstanding set: an empty wanted set consumes zero chunks (lines 90-94), and
whenever the outstanding set is exhausted after the first k chunks (so the
last match lies within them), at most k chunks are consumed (the break of
lines 127-129); in any case no more chunks than exist are consumed. -/
theorem resolver_early_exit_c5 :
    (∀ chunks, (load_relevant_people [] chunks).2.2 = 0) ∧
    (∀ ids chunks k, remainingAfter ids (chunks.take k) = [] →
      (load_relevant_people ids chunks).2.2 ≤ k) ∧
    (∀ ids chunks, (load_relevant_people ids chunks).2.2 ≤ chunks.length) := by
  refine ⟨fun chunks => rfl, ?_, ?_⟩
  · intro ids chunks k hafter
    by_cases hne : ids.isEmpty
    · simp [load_relevant_people, hne]
    · rw [load_relevant_people, if_neg hne]
      exact scanChunks_consumed_le chunks
        (fun h => hne (List.isEmpty_iff.mpr h)) hafter
  · intro ids chunks
    by_cases hne : ids.isEmpty
    · simp [load_relevant_people, hne]
    · rw [load_relevant_people, if_neg hne]
      exact scanChunks_consumed_le_length chunks ids

/-- Witness for C5: one wanted ID found in the first of two chunks, so at
most one chunk is consumed. -/
theorem resolver_early_exit_c5_witness :
    (load_relevant_people ["a"]
        [[⟨some "a", some "Ann"⟩], [⟨some "b", some "Bob"⟩]]).2.2 ≤ 1 :=
  resolver_early_exit_c5.2.1 ["a"]
    [[⟨some "a", some "Ann"⟩], [⟨some "b", some "Bob"⟩]] 1 (by decide)

/-- C6: the resolver's result has as key set exactly the wanted IDs that
occur in some reference chunk with non-null ID and non-null name; the wanted
IDs still outstanding at the end (reported only by the warning of
lines 136-140, which does not change the returned value) are exactly the
wanted IDs that occur in no chunk, and they are omitted from the result. -/
theorem resolver_completeness_c6 (ids : List String)
    (chunks : List (List NameRec)) (id : String) :
    (id ∈ (load_relevant_people ids chunks).1.map Prod.fst ↔
      id ∈ ids ∧ presentIn chunks id) ∧
    (id ∈ (load_relevant_people ids chunks).2.1 ↔
      id ∈ ids ∧ ¬ presentIn chunks id) := by
  by_cases hne : ids.isEmpty
  · have hnil := List.isEmpty_iff.mp hne
    subst hnil
    simp [load_relevant_people]
  · rw [load_relevant_people, if_neg hne]
    exact ⟨scanChunks_keys_iff chunks, scanChunks_outstanding_iff chunks⟩

/-- Witness for C6: with wanted IDs a and b, and a reference dataset holding
a but not b, the result keys contain a and the outstanding set contains b. -/
theorem resolver_completeness_c6_witness :
    "a" ∈ (load_relevant_people ["a", "b"]
        [[⟨some "a", some "Ann"⟩]]).1.map Prod.fst ∧
      "b" ∈ (load_relevant_people ["a", "b"]
        [[⟨some "a", some "Ann"⟩]]).2.1 :=
  ⟨(resolver_completeness_c6 ["a", "b"] [[⟨some "a", some "Ann"⟩]] "a").1.mpr
      ⟨by decide, [⟨some "a", some "Ann"⟩], by simp,
        ⟨some "a", some "Ann"⟩, by simp, rfl, "Ann", rfl⟩,
    (resolver_completeness_c6 ["a", "b"] [[⟨some "a", some "Ann"⟩]] "b").2.mpr
      ⟨by decide, by
        rw [presentIn_cons]
        rintro (⟨r, hr, hn, -⟩ | hp)
        · rw [List.mem_singleton] at hr
          subst hr
          exact absurd hn (by decide)
        · exact presentIn_nil hp⟩⟩

/-- C7 fails on the code: two reference rows with the same ID inside one
chunk both pass the `isin` filter of line 116 (the outstanding set only
shrinks after the whole chunk is matched), so the resolver's result holds two
entries for the ID "a". -/
theorem resolver_dup_cex_c7 :
    ¬ (((load_relevant_people ["a"]
        [[⟨some "a", some "X"⟩, ⟨some "a", some "Y"⟩]]).1.map
          Prod.fst).count "a" ≤ 1) := by
  decide

/-- C7 (amended): provided every single chunk holds at most one non-null row
per identifier, the resolver's result holds at most one entry per identifier;
duplicates across distinct chunks are always collapsed, since an ID matched
in an earlier chunk is removed from the outstanding set (line 120) and later
chunks only match outstanding IDs. -/
theorem resolver_at_most_one_c7 (ids : List String)
    (chunks : List (List NameRec)) (id : String)
    (h : ∀ c ∈ chunks, ((goodRows c).map Prod.fst).count id ≤ 1) :
    ((load_relevant_people ids chunks).1.map Prod.fst).count id ≤ 1 := by
  by_cases hne : ids.isEmpty
  · simp [load_relevant_people, hne]
  · rw [load_relevant_people, if_neg hne]
    exact scanChunks_count_le chunks h

/-- Witness for C7 (amended): the same ID in two different chunks yields a
single entry. -/
theorem resolver_at_most_one_c7_witness :
    ((load_relevant_people ["a"]
        [[⟨some "a", some "X"⟩], [⟨some "a", some "Y"⟩]]).1.map
          Prod.fst).count "a" ≤ 1 :=
  resolver_at_most_one_c7 ["a"]
    [[⟨some "a", some "X"⟩], [⟨some "a", some "Y"⟩]] "a" (by decide)

theorem some_pair_name_congr {α : Type} (b : α) (n : String) {x y : Nat}
    (h : x = y) :
    (some (b, some (n ++ " (" ++ toString x ++ ")")) :
        Option (α × Option String)) =
      some (b, some (n ++ " (" ++ toString y ++ ")")) := by
  rw [h]

theorem disambiguateAux_fst {α : Type} (dups : String → Bool) :
    ∀ (l : List (α × Option String)) (counter : String → Nat),
      (disambiguateAux dups counter l).map Prod.fst = l.map Prod.fst := by
  intro l
  induction l with
  | nil =>
    intro counter
    rfl
  | cons x rest ih =>
    intro counter
    obtain ⟨a, nm⟩ := x
    cases nm with
    | none => simp [disambiguateAux, ih]
    | some n =>
      by_cases hd : dups n <;> simp [disambiguateAux, hd, ih]

theorem disambiguateAux_get_none {α : Type} (dups : String → Bool) :
    ∀ (l : List (α × Option String)) (counter : String → Nat) (i : Nat)
      (a : α), l[i]? = some (a, none) →
      (disambiguateAux dups counter l)[i]? = some (a, none) := by
  intro l
  induction l with
  | nil =>
    intro counter i a hg
    simp at hg
  | cons x rest ih =>
    intro counter i a hg
    obtain ⟨b, nm⟩ := x
    cases nm with
    | none =>
      cases i with
      | zero => simpa [disambiguateAux] using hg
      | succ j =>
        simp only [List.getElem?_cons_succ] at hg
        simp only [disambiguateAux, List.getElem?_cons_succ]
        exact ih counter j a hg
    | some m =>
      cases i with
      | zero => simp at hg
      | succ j =>
        simp only [List.getElem?_cons_succ] at hg
        by_cases hdm : dups m
        · simp only [disambiguateAux, hdm, if_true, List.getElem?_cons_succ]
          exact ih _ j a hg
        · simp only [disambiguateAux, hdm, Bool.false_eq_true, if_false,
            List.getElem?_cons_succ]
          exact ih counter j a hg

theorem disambiguateAux_get_nodup {α : Type} (dups : String → Bool) :
    ∀ (l : List (α × Option String)) (counter : String → Nat) (i : Nat)
      (a : α) (n : String), l[i]? = some (a, some n) → dups n = false →
      (disambiguateAux dups counter l)[i]? = some (a, some n) := by
  intro l
  induction l with
  | nil =>
    intro counter i a n hg
    simp at hg
  | cons x rest ih =>
    intro counter i a n hg hnd
    obtain ⟨b, nm⟩ := x
    cases nm with
    | none =>
      cases i with
      | zero => simp at hg
      | succ j =>
        simp only [List.getElem?_cons_succ] at hg
        simp only [disambiguateAux, List.getElem?_cons_succ]
        exact ih counter j a n hg hnd
    | some m =>
      cases i with
      | zero =>
        simp only [List.getElem?_cons_zero, Option.some.injEq,
          Prod.mk.injEq] at hg
        obtain ⟨hb, hm⟩ := hg
        subst hb
        subst hm
        simp only [disambiguateAux, hnd, Bool.false_eq_true, if_false,
          List.getElem?_cons_zero]
      | succ j =>
        simp only [List.getElem?_cons_succ] at hg
        by_cases hdm : dups m
        · simp only [disambiguateAux, hdm, if_true, List.getElem?_cons_succ]
          exact ih _ j a n hg hnd
        · simp only [disambiguateAux, hdm, Bool.false_eq_true, if_false,
            List.getElem?_cons_succ]
          exact ih counter j a n hg hnd

theorem disambiguateAux_get_dup {α : Type} (dups : String → Bool) :
    ∀ (l : List (α × Option String)) (counter : String → Nat) (i : Nat)
      (a : α) (n : String), l[i]? = some (a, some n) → dups n = true →
      (disambiguateAux dups counter l)[i]? =
        some (a, some (n ++ " (" ++
          toString (counter n + ((l.take i).map Prod.snd).count (some n) + 1)
          ++ ")")) := by
  intro l
  induction l with
  | nil =>
    intro counter i a n hg
    simp at hg
  | cons x rest ih =>
    intro counter i a n hg hd
    obtain ⟨b, nm⟩ := x
    cases nm with
    | none =>
      cases i with
      | zero => simp at hg
      | succ j =>
        simp only [List.getElem?_cons_succ] at hg
        simp only [disambiguateAux, List.getElem?_cons_succ,
          List.take_succ_cons]
        rw [ih counter j a n hg hd]
        exact some_pair_name_congr a n (by simp [List.count_cons])
    | some m =>
      by_cases hdm : dups m
      · cases i with
        | zero =>
          simp only [List.getElem?_cons_zero, Option.some.injEq,
            Prod.mk.injEq] at hg
          obtain ⟨hb, hm⟩ := hg
          subst hb
          subst hm
          simp only [disambiguateAux, hdm, if_true, List.getElem?_cons_zero,
            List.take_zero]
          exact some_pair_name_congr b m (by simp)
        | succ j =>
          simp only [List.getElem?_cons_succ] at hg
          simp only [disambiguateAux, hdm, if_true, List.getElem?_cons_succ,
            List.take_succ_cons]
          rw [ih (fun k => if k = m then counter m + 1 else counter k) j a n
            hg hd]
          by_cases hnm : n = m
          · subst hnm
            simp only [if_pos rfl]
            exact some_pair_name_congr a n (by simp [List.count_cons]; omega)
          · rw [if_neg hnm]
            have hmn : m ≠ n := fun hh => hnm hh.symm
            exact some_pair_name_congr a n (by simp [List.count_cons, hmn])
      · cases i with
        | zero =>
          simp only [List.getElem?_cons_zero, Option.some.injEq,
            Prod.mk.injEq] at hg
          obtain ⟨hb, hm⟩ := hg
          rw [hm] at hdm
          rw [hd] at hdm
          exact absurd hdm (by decide)
        | succ j =>
          simp only [List.getElem?_cons_succ] at hg
          simp only [disambiguateAux, hdm, Bool.false_eq_true, if_false,
            List.getElem?_cons_succ, List.take_succ_cons]
          rw [ih counter j a n hg hd]
          have hmn : m ≠ n := fun hh => hdm (hh ▸ hd)
          exact some_pair_name_congr a n (by simp [List.count_cons, hmn])

/-- C3: disambiguation (lines 197-211) preserves the IDs and their order,
leaves null names and names occurring exactly once unchanged, and rewrites
the k-th occurrence (in input order) of a name occurring more than once to
that name suffixed with " (k)" — the suffix is one more than the number of
earlier occurrences, so the counter starts at 1 on the first occurrence; on
the spec's example the two "Ann" records become "Ann (1)" and "Ann (2)"
while "Bob" is untouched. -/
theorem disambiguate_correct_c3 :
    (∀ (α : Type) (records : List (α × Option String)),
      ((disambiguate records).map Prod.fst = records.map Prod.fst) ∧
      ∀ i : Nat,
        (∀ a, records[i]? = some (a, none) →
          (disambiguate records)[i]? = some (a, none)) ∧
        ∀ a n, records[i]? = some (a, some n) →
          ((records.map Prod.snd).count (some n) = 1 →
            (disambiguate records)[i]? = some (a, some n)) ∧
          (2 ≤ (records.map Prod.snd).count (some n) →
            (disambiguate records)[i]? =
              some (a, some (n ++ " (" ++
                toString
                  (((records.take i).map Prod.snd).count (some n) + 1)
                ++ ")")))) ∧
    disambiguate [(1, some "Ann"), (2, some "Bob"), (3, some "Ann")] =
      [(1, some "Ann (1)"), (2, some "Bob"), (3, some "Ann (2)")] := by
  refine ⟨?_, by decide⟩
  intro α records
  refine ⟨disambiguateAux_fst _ records _, ?_⟩
  intro i
  refine ⟨fun a hg => disambiguateAux_get_none _ records _ i a hg, ?_⟩
  intro a n hg
  constructor
  · intro hcount
    refine disambiguateAux_get_nodup _ records _ i a n hg ?_
    simp [hcount]
  · intro hcount
    have hdup : decide
        (2 ≤ (records.map Prod.snd).count (some n)) = true := by
      simp [hcount]
    have hkey := disambiguateAux_get_dup
      (fun k => decide (2 ≤ (records.map Prod.snd).count (some k)))
      records (fun _ => 0) i a n hg hdup
    rw [disambiguate, hkey]
    exact some_pair_name_congr a n (by simp)

/-- Witness for C3: the third record of the spec's example (the second
occurrence of "Ann") is rewritten to "Ann (2)". -/
theorem disambiguate_correct_c3_witness :
    (disambiguate [(1, some "Ann"), (2, some "Bob"), (3, some "Ann")])[2]? =
      some (3, some "Ann (2)") := by
  have h := (((disambiguate_correct_c3.1 Nat
      [(1, some "Ann"), (2, some "Bob"), (3, some "Ann")]).2 2).2 3 "Ann"
      (by decide)).2 (by decide)
  exact h.trans (by decide)

/-- C4: the ID-list rewrite of lines 222-238 maps a null cell to null and a
non-null cell to the comma-join, in token order, of the mapping values of
exactly the mapped tokens; a non-null cell all of whose tokens are unmapped
becomes null (absent from the grouped result), not an empty string; on the
spec's example mapping, "n1,n2,n3" rewrites to "Ann (1),Ann (2)" and "n2" to
null. -/
theorem ids_to_names_correct_c4 (m : String → Option String)
    (series : List (Option String)) :
    (ids_to_names series m).length = series.length ∧
    (∀ i (h : i < series.length) (h2 : i < (ids_to_names series m).length),
      (series.get ⟨i, h⟩ = none →
        (ids_to_names series m).get ⟨i, h2⟩ = none) ∧
      ∀ s, series.get ⟨i, h⟩ = some s →
        ((∀ t ∈ splitOnComma s, m t = none) →
          (ids_to_names series m).get ⟨i, h2⟩ = none) ∧
        (ids_to_names series m).get ⟨i, h2⟩ =
          (if ((splitOnComma s).filterMap m).isEmpty = true then none
           else some (String.intercalate ","
             ((splitOnComma s).filterMap m)))) ∧
    (m "n1" = some "Ann (1)" → m "n2" = none → m "n3" = some "Ann (2)" →
      ids_to_names [some "n1,n2,n3", some "n2"] m =
        [some "Ann (1),Ann (2)", none]) := by
  refine ⟨List.length_map series (rewriteCell m), ?_, ?_⟩
  · intro i h h2
    have key : (ids_to_names series m).get ⟨i, h2⟩ =
        rewriteCell m (series.get ⟨i, h⟩) := by
      simp only [ids_to_names, List.get_eq_getElem, List.getElem_map]
    refine ⟨?_, ?_⟩
    · intro hnone
      rw [key, hnone]
      rfl
    · intro s hs
      refine ⟨?_, ?_⟩
      · intro hall
        rw [key, hs]
        have hnil : (splitOnComma s).filterMap m = [] :=
          List.filterMap_eq_nil_iff.mpr hall
        simp [rewriteCell, hnil]
      · rw [key, hs]
        simp [rewriteCell]
  · intro h1 h2 h3
    have hs1 : splitOnComma "n1,n2,n3" = ["n1", "n2", "n3"] := by decide
    have hs2 : splitOnComma "n2" = ["n2"] := by decide
    have hfm1 : List.filterMap m ["n1", "n2", "n3"] =
        ["Ann (1)", "Ann (2)"] := by
      simp only [List.filterMap_cons, h1, h2, h3, List.filterMap_nil]
    have hfm2 : List.filterMap m ["n2"] = [] := by
      simp only [List.filterMap_cons, h2, List.filterMap_nil]
    simp only [ids_to_names, List.map_cons, List.map_nil, rewriteCell, hs1,
      hs2, hfm1, hfm2]
    decide

/-- Witness for C4 with the spec's concrete mapping. -/
theorem ids_to_names_correct_c4_witness :
    ids_to_names [some "n1,n2,n3", some "n2"]
        (fun t =>
          if t = "n1" then some "Ann (1)"
          else if t = "n3" then some "Ann (2)" else none)
      = [some "Ann (1),Ann (2)", none] :=
  (ids_to_names_correct_c4 _ [some "n1,n2,n3", some "n2"]).2.2 (by decide)
    (by decide) (by decide)

/-- C8: when the artifact exists and force is false, the cache gate returns
the fixed artifact path with the state untouched (no pipeline run, artifact
not rewritten); starting from a missing artifact, two builds with force=false
run the pipeline exactly once, both return the same path, and the second call
leaves the state of the first unchanged. -/
theorem cache_gate_c8 :
    (∀ s : BuildState, s.artifactExists = true →
      build_imdb_csv_gate false s = (s, CSV_PATH)) ∧
    (∀ s : BuildState, s.artifactExists = false →
      (build_imdb_csv_gate false (build_imdb_csv_gate false s).1).1.pipelineRuns
          = s.pipelineRuns + 1 ∧
        (build_imdb_csv_gate false s).2 = CSV_PATH ∧
        (build_imdb_csv_gate false (build_imdb_csv_gate false s).1).2
          = CSV_PATH ∧
        (build_imdb_csv_gate false (build_imdb_csv_gate false s).1).1
          = (build_imdb_csv_gate false s).1) := by
  constructor
  · intro s hs
    simp [build_imdb_csv_gate, hs]
  · intro s hs
    simp [build_imdb_csv_gate, hs]

/-- Witness for C8 at concrete cache states. -/
theorem cache_gate_c8_witness :
    build_imdb_csv_gate false ⟨true, 4⟩ = (⟨true, 4⟩, CSV_PATH) ∧
      (build_imdb_csv_gate false
          (build_imdb_csv_gate false ⟨false, 0⟩).1).1.pipelineRuns = 0 + 1 :=
  ⟨cache_gate_c8.1 ⟨true, 4⟩ rfl, (cache_gate_c8.2 ⟨false, 0⟩ rfl).1⟩

/-- C9: foreign-key extraction strips whitespace from tokens
(lines 186-188) but the ID-list rewrite looks raw tokens up without stripping
(line 228): for the cell "n1, n2", the stripped token "n2" is collected into
the wanted set, yet — for any mapping resolving "n1" and "n2" but having no
entry for the raw token " n2" — the rewritten cell is just "Ann": the
whitespace-carrying token is dropped even though its trimmed ID is mapped. -/
theorem whitespace_mismatch_c9 (m : String → Option String)
    (h1 : m "n1" = some "Ann") (h2 : m " n2" = none)
    (_hm : m "n2" = some "Bob") :
    "n2" ∈ collect_relevant_ids [some "n1, n2"] ∧
      ids_to_names [some "n1, n2"] m = [some "Ann"] := by
  refine ⟨by decide, ?_⟩
  have hs : splitOnComma "n1, n2" = ["n1", " n2"] := by decide
  have hfm : List.filterMap m ["n1", " n2"] = ["Ann"] := by
    simp only [List.filterMap_cons, h1, h2, List.filterMap_nil]
  simp only [ids_to_names, rewriteCell, List.map_cons, List.map_nil, hs, hfm]
  decide

/-- Witness for C9 with a concrete mapping resolving "n1" and "n2". -/
theorem whitespace_mismatch_c9_witness :
    "n2" ∈ collect_relevant_ids [some "n1, n2"] ∧
      ids_to_names [some "n1, n2"]
          (fun t =>
            if t = "n1" then some "Ann"
            else if t = "n2" then some "Bob" else none)
        = [some "Ann"] :=
  whitespace_mismatch_c9 _ (by decide) (by decide) (by decide)

/-- C10: the whole build pipeline is one pure function of the four source
datasets (merge, filter, ID collection, chunked resolution, disambiguation
and rewrite are all stateless in the embedding), so two runs on identical
source records produce identical output tables, including the assignment of
disambiguation suffixes. -/
theorem pipeline_deterministic_c10 (b b2 : List BasicsRow)
    (r r2 : List RatingsRow) (c c2 : List CrewRow)
    (n n2 : List (List NameRec)) (hb : b = b2) (hr : r = r2) (hc : c = c2)
    (hn : n = n2) :
    build_pipeline b r c n = build_pipeline b2 r2 c2 n2 := by
  subst hb
  subst hr
  subst hc
  subst hn
  rfl

/-- Witness for C10 at a concrete run. -/
theorem pipeline_deterministic_c10_witness :
    build_pipeline [sampleBasics] [sampleRatings] [] [] =
      build_pipeline [sampleBasics] [sampleRatings] [] [] :=
  pipeline_deterministic_c10 [sampleBasics] [sampleBasics] [sampleRatings]
    [sampleRatings] [] [] [] [] rfl rfl rfl rfl

end ImdbBuild
